import Mathlib

/-!
Shallow embedding of the rust-ao repository (libao bindings) for specification
verification.

The embedding mirrors the Rust sources:
  - `src/src/lib.rs`: error taxonomy (`AoError`), errno translation
    (`AoError.from_errno`), library initialization guard (`AO.init` modelled
    as a state machine over an initialized flag and a live-handle count).
  - `src/lib.rs` (historical snapshot of the same crate): its errno
    translation is embedded as `AoError.from_errno_v0`.
  - `src/src/auto.rs`: `DeviceFormat`, `AutoFormatDevice` with `matrix_for`
    and `play`. The native driver call `Driver::open_live` is FFI, so it is
    modelled as an oracle parameter (`OpenOracle`) that the code consults;
    the oracle decides whether an open succeeds or which `AoError` it
    returns. A Rust panic is modelled as the `none` outcome of an
    `Option`-valued function: no post-state exists for a panicking call.
  - `src/src/pipeline.rs`: `WhiteNoise` (the random number generator plus
    Gaussian sampling is abstracted as a stream of rational draws; the
    clamping logic is embedded verbatim) and the `Convert` iterator for the
    f64-to-i16 instance, whose `next` is embedded including its
    `unwrap`-on-the-source behaviour, with panics again as a distinguished
    outcome.
  - `src/demo/main.rs`: `DeviceSink.run`, the block-forwarding loop; the
    source is modelled as the list of blocks it will yield before
    exhaustion.

Machine integers: all widths, rates, counts and byte values are natural
numbers (they are `usize` values in the source and never overflow in the
embedded logic); f64 samples are modelled as rationals, which is faithful
for the clamping comparisons against the exactly representable 1.0 and
-1.0.
-/

/-- Endianness of samples, from `src/src/lib.rs` (`pub enum Endianness`). -/
inductive Endianness
  | Little
  | Big
  | Native
deriving DecidableEq, Repr

/-- Error taxonomy, from `src/src/lib.rs` (`pub enum AoError`). -/
inductive AoError
  | NoDriver
  | NotFile
  | NotLive
  | BadOption
  | OpenDevice
  | OpenFile
  | FileExists
  | BadFormat
  | Unknown
deriving DecidableEq, Repr

/-- Result alias, from `src/src/lib.rs` (`pub type AoResult<T>`). -/
abbrev AoResult (α : Type) := Except AoError α

/-- Native error code, from `src/src/ffi.rs`. -/
def AO_ENODRIVER : Int := 1

/-- Native error code, from `src/src/ffi.rs`. -/
def AO_ENOTFILE : Int := 2

/-- Native error code, from `src/src/ffi.rs`. -/
def AO_ENOTLIVE : Int := 3

/-- Native error code, from `src/src/ffi.rs`. -/
def AO_EBADOPTION : Int := 4

/-- Native error code, from `src/src/ffi.rs`. -/
def AO_EOPENDEVICE : Int := 5

/-- Native error code, from `src/src/ffi.rs`. -/
def AO_EOPENFILE : Int := 6

/-- Native error code, from `src/src/ffi.rs`. -/
def AO_EFILEEXISTS : Int := 7

/-- Native error code, from `src/src/ffi.rs`. -/
def AO_EBADFORMAT : Int := 8

/-- Native error code, from `src/src/ffi.rs`. -/
def AO_EFAIL : Int := 100

/-- Errno translation from `src/src/lib.rs`, `AoError::from_errno`
(lines 98-112). The native errno is passed as the argument; the Rust
`match` over the error-code statics is a sequence of equality tests. -/
def AoError.from_errno (errno : Int) : AoError :=
  if errno = AO_ENODRIVER then .NoDriver
  else if errno = AO_ENOTFILE then .NotFile
  else if errno = AO_ENOTLIVE then .NotLive
  else if errno = AO_EBADOPTION then .BadOption
  else if errno = AO_EOPENDEVICE then .OpenDevice
  else if errno = AO_EOPENFILE then .OpenFile
  else if errno = AO_EFILEEXISTS then .FileExists
  else if errno = AO_EBADFORMAT then .BadFormat
  else .Unknown

/-- Errno translation from the historical snapshot `src/lib.rs`,
`AoError::from_errno` (lines 38-51). Note that this variant has no arm for
`AO_EOPENFILE`; that code falls through to the catch-all. -/
def AoError.from_errno_v0 (errno : Int) : AoError :=
  if errno = AO_ENODRIVER then .NoDriver
  else if errno = AO_ENOTFILE then .NotFile
  else if errno = AO_ENOTLIVE then .NotLive
  else if errno = AO_EBADOPTION then .BadOption
  else if errno = AO_EOPENDEVICE then .OpenDevice
  else if errno = AO_EFILEEXISTS then .FileExists
  else if errno = AO_EBADFORMAT then .BadFormat
  else .Unknown

/-- Observable content of a `SampleBuffer` (trait in `src/src/auto.rs`):
channel count, sample rate, endianness, bit width of samples, and the raw
bytes returned by `data()`. -/
structure Buffer where
  channels : Nat
  sample_rate : Nat
  endianness : Endianness
  sample_width : Nat
  data : List Nat
deriving DecidableEq, Repr

/-- Oracle modelling `Driver::open_live`: given the bit width, sample rate,
channel count, byte order and optional matrix string of the format being
opened, the native library either yields a device (success) or an error. -/
def OpenOracle : Type :=
  Nat → Nat → Nat → Endianness → Option String → AoResult Unit

/-- Tagged union of open devices, from `src/src/auto.rs`
(`enum DeviceFormat`). The native device handle has no observable content
in this model, so each variant is a bare tag. -/
inductive DeviceFormat
  | Integer8
  | Integer16
  | Integer32
deriving DecidableEq, Repr

/-- Bit width of the open device, from `src/src/auto.rs`,
`DeviceFormat::sample_width` (lines 73-79). -/
def DeviceFormat.sample_width : DeviceFormat → Nat
  | .Integer8 => 8
  | .Integer16 => 16
  | .Integer32 => 32

/-- Device construction from `src/src/auto.rs`, `DeviceFormat::new`
(lines 81-111). The Rust `match width` selects among 8, 16 and 32 and
panics in the default arm; a panic is the `none` outcome (the driver open
is never consulted in that case, since the panicking arm precedes it). -/
def DeviceFormat.new (openLive : OpenOracle) (width rate channels : Nat)
    (endianness : Endianness) (matrix : Option String) :
    Option (AoResult DeviceFormat) :=
  if width = 8 then
    some ((openLive 8 rate channels endianness matrix).map fun _ => .Integer8)
  else if width = 16 then
    some ((openLive 16 rate channels endianness matrix).map fun _ => .Integer16)
  else if width = 32 then
    some ((openLive 32 rate channels endianness matrix).map fun _ => .Integer32)
  else
    none

/-- State of an `AutoFormatDevice` from `src/src/auto.rs` (lines 118-125):
the cached observed format fields, the optional open device, and the matrix
table. The driver is factored out as the `OpenOracle` parameter of `play`. -/
structure AutoFormatDevice where
  channels : Nat
  sample_rate : Nat
  endianness : Endianness
  device : Option DeviceFormat
  matrixes : List String
deriving DecidableEq, Repr

/-- Constructor from `src/src/auto.rs`, `AutoFormatDevice::new`
(lines 133-142). -/
def AutoFormatDevice.new (matrixes : List String) : AutoFormatDevice :=
  { channels := 0
    sample_rate := 0
    endianness := .Native
    device := none
    matrixes := matrixes }

/-- Matrix selection from `src/src/auto.rs`, `AutoFormatDevice::matrix_for`
(lines 204-210). -/
def AutoFormatDevice.matrix_for (s : AutoFormatDevice) (nchannels : Nat) :
    Option String :=
  if h : s.matrixes.length ≤ nchannels then
    none
  else
    some (s.matrixes.get ⟨nchannels, lt_of_not_le h⟩)

/-- Reopen decision from `src/src/auto.rs`, `AutoFormatDevice::play`
(lines 154-169): reopen when no device is cached, or when any of channels,
sample rate or endianness differs from the cached observed values, or when
the buffer width differs from the bit width of the open device. -/
def must_reopen (s : AutoFormatDevice) (b : Buffer) : Bool :=
  match s.device with
  | none => true
  | some d =>
      if b.channels ≠ s.channels ∨
         b.sample_rate ≠ s.sample_rate ∨
         b.endianness ≠ s.endianness ∨
         b.sample_width ≠ d.sample_width then
        true
      else
        false

/-- Reopen condition as the specification words it, for comparison with the
code-derived `must_reopen`. -/
def specMustReopen (s : AutoFormatDevice) (b : Buffer) : Prop :=
  s.device = none ∨
    ∃ d, s.device = some d ∧
      (b.channels ≠ s.channels ∨
       b.sample_rate ≠ s.sample_rate ∨
       b.endianness ≠ s.endianness ∨
       b.sample_width ≠ d.sample_width)

/-- Observable outcome of one non-panicking `play` call: the post-state,
the returned result, the list of argument tuples the driver open was
invoked with (width, rate, channels, endianness, matrix), and the bytes
written to the open device. -/
structure PlayStep where
  state : AutoFormatDevice
  result : AoResult Unit
  openArgs : List (Nat × Nat × Nat × Endianness × Option String)
  written : List Nat

/-- Playback from `src/src/auto.rs`, `AutoFormatDevice::play`
(lines 148-196). On a needed reopen the device is constructed via
`DeviceFormat::new` with the matrix selected by `matrix_for`; the `try!`
on failure returns the error before any field of `self` is assigned. On
success (reopened or not) the observed fields are updated to the buffer
values and the raw bytes are written through the open device. A panic
(unsupported width) yields `none`: no post-state exists. -/
def AutoFormatDevice.play (openLive : OpenOracle) (s : AutoFormatDevice)
    (b : Buffer) : Option PlayStep :=
  if must_reopen s b then
    match DeviceFormat.new openLive b.sample_width b.sample_rate b.channels
        b.endianness (s.matrix_for b.channels) with
    | none => none
    | some (.error e) =>
        some { state := s
               result := .error e
               openArgs := [(b.sample_width, b.sample_rate, b.channels,
                             b.endianness, s.matrix_for b.channels)]
               written := [] }
    | some (.ok d) =>
        some { state := { s with device := some d
                                 channels := b.channels
                                 sample_rate := b.sample_rate
                                 endianness := b.endianness }
               result := .ok ()
               openArgs := [(b.sample_width, b.sample_rate, b.channels,
                             b.endianness, s.matrix_for b.channels)]
               written := b.data }
  else
    some { state := { s with channels := b.channels
                             sample_rate := b.sample_rate
                             endianness := b.endianness }
           result := .ok ()
           openArgs := []
           written := b.data }

/-- Sequence of `play` calls against the same `AutoFormatDevice`, threading
the state; `none` if any call panics. -/
def AutoFormatDevice.playTrace (openLive : OpenOracle) (s : AutoFormatDevice) :
    List Buffer → Option (AutoFormatDevice × List PlayStep)
  | [] => some (s, [])
  | b :: bs =>
      match AutoFormatDevice.play openLive s b with
      | none => none
      | some step =>
          match AutoFormatDevice.playTrace openLive step.state bs with
          | none => none
          | some (s', steps) => some (s', step :: steps)

/-- Number of successful device opens performed during one `play` call: the
driver-open invocations of a call whose result is `ok`. A failed open
invocation does not open the device. -/
def PlayStep.successOpens (st : PlayStep) : Nat :=
  match st.result with
  | .ok _ => st.openArgs.length
  | .error _ => 0

/-- Agreement of two buffers on the four format fields (channels, sample
rate, endianness, bit width). -/
def sameFormat (b b' : Buffer) : Prop :=
  b.channels = b'.channels ∧
  b.sample_rate = b'.sample_rate ∧
  b.endianness = b'.endianness ∧
  b.sample_width = b'.sample_width

instance (b b' : Buffer) : Decidable (sameFormat b b') := by
  unfold sameFormat
  infer_instance

section PipelineDefs

/-- Clamping of one Gaussian draw from `src/src/pipeline.rs`,
`WhiteNoise::next` (lines 88-99). -/
def clampSample (x : ℚ) : ℚ :=
  if x > 1 then 1
  else if x < -1 then -1
  else x

/-- State of the white noise generator from `src/src/pipeline.rs`
(lines 66-83). The mutable random number generator together with the
`Normal` distribution object is abstracted as a stream of rational draws
(one value per `ind_sample` call); `amplitude` only parameterizes the
distribution of those draws and is kept for fidelity to the constructor. -/
structure WhiteNoise where
  rng : Nat → ℚ
  amplitude : ℚ
  block_size : Nat

/-- Constructor from `src/src/pipeline.rs`, `WhiteNoise::new`
(lines 73-82): block size is fixed at 512. -/
def WhiteNoise.new (rng : Nat → ℚ) (amplitude : ℚ) : WhiteNoise :=
  { rng := rng, amplitude := amplitude, block_size := 512 }

/-- One iterator step from `src/src/pipeline.rs`, `WhiteNoise::next`
(lines 87-100): always yields `some` block of `block_size` clamped draws,
and advances the generator past the consumed draws. -/
def WhiteNoise.next (w : WhiteNoise) : Option (List ℚ) × WhiteNoise :=
  (some ((List.range w.block_size).map fun i => clampSample (w.rng i)),
   { w with rng := fun i => w.rng (i + w.block_size) })

/-- Outcome of one `Iterator::next` call that may also panic: `panicked`
models a Rust panic, `exhausted` models returning `None`, and `yields`
models returning `Some`. -/
inductive IterStep (α : Type)
  | panicked
  | exhausted
  | yields (a : α)
deriving DecidableEq, Repr

/-- Iterator step of the f64-to-i16 conversion stage from
`src/src/pipeline.rs`, `impl Iterator<~[i16]> for Convert<f64, i16>`
(lines 56-63). The boxed source is modelled by the list of blocks it will
yield before exhaustion. The Rust body calls `self.src.next().unwrap()`
(panicking when the source is exhausted) and maps every source sample to
the literal `0`, then returns `Some` of the collected block together with
the advanced source. -/
def Convert.next (src : List (List ℚ)) : IterStep (List Int × List (List ℚ)) :=
  match src with
  | [] => .panicked
  | blk :: rest => .yields (blk.map fun _ => (0 : Int), rest)

end PipelineDefs

/-- Block-forwarding loop from `src/demo/main.rs`, `DeviceSink::run`
(lines 26-44). The source is modelled by the list of blocks it will yield
before returning `None`. Returns the final `done` counter and the list of
(sub)blocks forwarded to `Device::play`; the Rust `while done < samples`
loop is the recursion, `slice_to` is `List.take`. -/
def DeviceSink.run {α : Type} (samples : Nat) :
    List (List α) → Nat → Nat × List (List α)
  | [], done => (done, [])
  | n :: rest, done =>
      if done < samples then
        let data := if n.length > samples - done then
            n.take (samples - done)
          else
            n
        let r := DeviceSink.run samples rest (done + data.length)
        (r.1, data :: r.2)
      else
        (done, [])

/-- Process-wide initialization state from `src/src/lib.rs` (lines
248-307): the atomic initialized flag and, for stating the
single-handle invariant, the number of live `AO` handles. -/
structure AOState where
  initialized : Bool
  live : Nat
deriving DecidableEq, Repr

/-- Events on the process-wide state: a call to `AO::init` and a drop of a
live `AO` handle. -/
inductive AOEvent
  | init
  | drop
deriving DecidableEq, Repr

/-- State at process start: flag clear, no live handle. -/
def AOState.start : AOState :=
  { initialized := false, live := 0 }

/-- Transition from `src/src/lib.rs`: `AO::init` (lines 252-260) performs a
compare-and-swap on the atomic initialized flag and panics (modelled as
`none`) when
the flag was already set, otherwise yields a new live handle; `Drop for AO`
(lines 300-307) clears the flag. A drop event requires a live handle (Rust
ownership: only an existing handle can be dropped). -/
def AO.step (s : AOState) : AOEvent → Option AOState
  | .init =>
      if s.initialized then none
      else some { initialized := true, live := s.live + 1 }
  | .drop =>
      if s.live = 0 then none
      else some { initialized := false, live := s.live - 1 }

/-- Run of a sequence of events from a state, `none` if any step panics or
is impossible. -/
def AO.run (s : AOState) : List AOEvent → Option AOState
  | [] => some s
  | e :: es =>
      match AO.step s e with
      | none => none
      | some s' => AO.run s' es

/-! Helper lemmas about the auto-format device. -/

theorem must_reopen_eq_false_iff (s : AutoFormatDevice) (b : Buffer) :
    must_reopen s b = false ↔
      ∃ d, s.device = some d ∧ b.channels = s.channels ∧
        b.sample_rate = s.sample_rate ∧ b.endianness = s.endianness ∧
        b.sample_width = d.sample_width := by
  cases hd : s.device with
  | none => simp [must_reopen, hd]
  | some d =>
      simp only [must_reopen, hd, Option.some.injEq]
      constructor
      · intro h
        refine ⟨d, rfl, ?_⟩
        by_contra hc
        rw [if_pos] at h
        · exact Bool.true_eq_false.mp h
        · push_neg at hc
          tauto
      · rintro ⟨d', hd', h1, h2, h3, h4⟩
        cases hd'
        rw [if_neg]
        push_neg
        exact ⟨h1, h2, h3, h4⟩

theorem must_reopen_eq_true_iff (s : AutoFormatDevice) (b : Buffer) :
    must_reopen s b = true ↔ specMustReopen s b := by
  cases hd : s.device with
  | none => simp [must_reopen, specMustReopen, hd]
  | some d =>
      simp only [must_reopen, hd, specMustReopen, Option.some.injEq]
      constructor
      · intro h
        right
        refine ⟨d, rfl, ?_⟩
        by_contra hc
        rw [if_neg] at h
        · exact Bool.false_eq_true.mp h
        · push_neg at hc
          tauto
      · rintro (h | ⟨d', hd', hne⟩)
        · exact absurd h (by simp)
        · cases hd'
          rw [if_pos]
          tauto

theorem DeviceFormat.new_ok_width {o : OpenOracle} {w r c : Nat}
    {e : Endianness} {m : Option String} {d : DeviceFormat}
    (h : DeviceFormat.new o w r c e m = some (.ok d)) :
    d.sample_width = w := by
  unfold DeviceFormat.new at h
  split at h
  · rename_i h8
    cases ho : o 8 r c e m <;> simp [ho, Except.map] at h
    cases h
    simp [DeviceFormat.sample_width, h8]
  · split at h
    · rename_i h16
      cases ho : o 16 r c e m <;> simp [ho, Except.map] at h
      cases h
      simp [DeviceFormat.sample_width, h16]
    · split at h
      · rename_i h32
        cases ho : o 32 r c e m <;> simp [ho, Except.map] at h
        cases h
        simp [DeviceFormat.sample_width, h32]
      · exact absurd h (by simp)

theorem DeviceFormat.new_error_oracle {o : OpenOracle} {w r c : Nat}
    {e : Endianness} {m : Option String} {er : AoError}
    (h : DeviceFormat.new o w r c e m = some (.error er)) :
    o w r c e m = .error er := by
  unfold DeviceFormat.new at h
  split at h
  · rename_i h8
    subst h8
    cases ho : o 8 r c e m <;> simp [ho, Except.map] at h
    rw [h]
  · split at h
    · rename_i h16
      subst h16
      cases ho : o 16 r c e m <;> simp [ho, Except.map] at h
      rw [h]
    · split at h
      · rename_i h32
        subst h32
        cases ho : o 32 r c e m <;> simp [ho, Except.map] at h
        rw [h]
      · exact absurd h (by simp)

theorem DeviceFormat.new_invalid {o : OpenOracle} {w r c : Nat}
    {e : Endianness} {m : Option String}
    (h8 : w ≠ 8) (h16 : w ≠ 16) (h32 : w ≠ 32) :
    DeviceFormat.new o w r c e m = none := by
  simp [DeviceFormat.new, h8, h16, h32]

theorem play_of_not_reopen {o : OpenOracle} {s : AutoFormatDevice} {b : Buffer}
    (h : must_reopen s b = false) :
    AutoFormatDevice.play o s b =
      some { state := { s with channels := b.channels
                               sample_rate := b.sample_rate
                               endianness := b.endianness }
             result := .ok ()
             openArgs := []
             written := b.data } := by
  simp [AutoFormatDevice.play, h]

theorem play_cases {o : OpenOracle} {s : AutoFormatDevice} {b : Buffer}
    {step : PlayStep} (hp : AutoFormatDevice.play o s b = some step) :
    (must_reopen s b = false ∧
      step = { state := { s with channels := b.channels
                                 sample_rate := b.sample_rate
                                 endianness := b.endianness }
               result := .ok ()
               openArgs := []
               written := b.data }) ∨
    (∃ e, must_reopen s b = true ∧
      DeviceFormat.new o b.sample_width b.sample_rate b.channels b.endianness
          (s.matrix_for b.channels) = some (.error e) ∧
      step = { state := s
               result := .error e
               openArgs := [(b.sample_width, b.sample_rate, b.channels,
                             b.endianness, s.matrix_for b.channels)]
               written := [] }) ∨
    (∃ d, must_reopen s b = true ∧
      DeviceFormat.new o b.sample_width b.sample_rate b.channels b.endianness
          (s.matrix_for b.channels) = some (.ok d) ∧
      step = { state := { s with device := some d
                                 channels := b.channels
                                 sample_rate := b.sample_rate
                                 endianness := b.endianness }
               result := .ok ()
               openArgs := [(b.sample_width, b.sample_rate, b.channels,
                             b.endianness, s.matrix_for b.channels)]
               written := b.data }) := by
  unfold AutoFormatDevice.play at hp
  cases hmr : must_reopen s b with
  | false =>
      left
      simp only [hmr, Bool.false_eq_true, if_false, Option.some.injEq] at hp
      exact ⟨rfl, hp.symm⟩
  | true =>
      right
      rw [hmr] at hp
      simp only [if_true] at hp
      cases hnew : DeviceFormat.new o b.sample_width b.sample_rate b.channels
          b.endianness (s.matrix_for b.channels) with
      | none =>
          rw [hnew] at hp
          exact absurd hp (by simp)
      | some res =>
          rw [hnew] at hp
          cases res with
          | error e =>
              left
              simp only [Option.some.injEq] at hp
              exact ⟨e, rfl, rfl, hp.symm⟩
          | ok d =>
              right
              simp only [Option.some.injEq] at hp
              exact ⟨d, rfl, rfl, hp.symm⟩

theorem play_openArgs_len {o : OpenOracle} {s : AutoFormatDevice} {b : Buffer}
    {step : PlayStep} (hp : AutoFormatDevice.play o s b = some step) :
    step.openArgs.length = if must_reopen s b then 1 else 0 := by
  rcases play_cases hp with ⟨hmr, hstep⟩ | ⟨e, hmr, _, hstep⟩ | ⟨d, hmr, _, hstep⟩ <;>
    subst hstep <;> simp [hmr]

theorem play_error_inv {o : OpenOracle} {s : AutoFormatDevice} {b : Buffer}
    {step : PlayStep} {er : AoError}
    (hp : AutoFormatDevice.play o s b = some step)
    (hr : step.result = .error er) :
    step.state = s ∧ step.written = [] ∧ step.openArgs.length = 1 ∧
      o b.sample_width b.sample_rate b.channels b.endianness
        (s.matrix_for b.channels) = .error er := by
  rcases play_cases hp with ⟨hmr, hstep⟩ | ⟨e, hmr, hnew, hstep⟩ | ⟨d, hmr, hnew, hstep⟩
  · subst hstep
    exact absurd hr (by simp)
  · subst hstep
    simp only [Except.error.injEq] at hr
    subst hr
    exact ⟨rfl, rfl, rfl, DeviceFormat.new_error_oracle hnew⟩
  · subst hstep
    exact absurd hr (by simp)

theorem play_ok_post {o : OpenOracle} {s : AutoFormatDevice} {b : Buffer}
    {step : PlayStep} (hp : AutoFormatDevice.play o s b = some step)
    (hr : step.result = .ok ()) :
    step.state.channels = b.channels ∧
    step.state.sample_rate = b.sample_rate ∧
    step.state.endianness = b.endianness ∧
    ∃ d, step.state.device = some d ∧ d.sample_width = b.sample_width := by
  rcases play_cases hp with ⟨hmr, hstep⟩ | ⟨e, hmr, hnew, hstep⟩ | ⟨d, hmr, hnew, hstep⟩
  · subst hstep
    rcases (must_reopen_eq_false_iff s b).mp hmr with ⟨d, hd, _, _, _, hw⟩
    exact ⟨rfl, rfl, rfl, d, hd, hw.symm⟩
  · subst hstep
    exact absurd hr (by simp)
  · subst hstep
    exact ⟨rfl, rfl, rfl, d, rfl, DeviceFormat.new_ok_width hnew⟩

theorem sameFormat_symm {b b' : Buffer} (h : sameFormat b b') :
    sameFormat b' b := by
  obtain ⟨h1, h2, h3, h4⟩ := h
  exact ⟨h1.symm, h2.symm, h3.symm, h4.symm⟩

theorem sameFormat_cancel {b0 b b' : Buffer}
    (h : sameFormat b0 b) (h' : sameFormat b0 b') : sameFormat b b' := by
  obtain ⟨h1, h2, h3, h4⟩ := h
  obtain ⟨k1, k2, k3, k4⟩ := h'
  exact ⟨h1.symm.trans k1, h2.symm.trans k2, h3.symm.trans k3, h4.symm.trans k4⟩

theorem play_ok_matches {o : OpenOracle} {s : AutoFormatDevice} {b : Buffer}
    {step : PlayStep} (hp : AutoFormatDevice.play o s b = some step)
    (hr : step.result = .ok ()) {b' : Buffer} (hsf : sameFormat b b') :
    must_reopen step.state b' = false := by
  obtain ⟨hc, hs, he, d, hd, hw⟩ := play_ok_post hp hr
  obtain ⟨f1, f2, f3, f4⟩ := hsf
  exact (must_reopen_eq_false_iff _ _).mpr
    ⟨d, hd, by rw [hc, f1], by rw [hs, f2], by rw [he, f3], by rw [hw, f4]⟩

theorem must_reopen_same_of_matched {s : AutoFormatDevice} {b0 b : Buffer}
    (hm : must_reopen s b0 = false) (hsf : sameFormat b0 b) :
    must_reopen s b = false := by
  rcases (must_reopen_eq_false_iff s b0).mp hm with ⟨d, hd, h1, h2, h3, h4⟩
  obtain ⟨f1, f2, f3, f4⟩ := hsf
  exact (must_reopen_eq_false_iff s b).mpr
    ⟨d, hd, f1 ▸ h1, f2 ▸ h2, f3 ▸ h3, f4 ▸ h4⟩

theorem playTrace_cons (o : OpenOracle) (s : AutoFormatDevice) (b : Buffer)
    (bs : List Buffer) :
    AutoFormatDevice.playTrace o s (b :: bs) =
      (AutoFormatDevice.play o s b).bind fun step =>
        (AutoFormatDevice.playTrace o step.state bs).map fun r =>
          (r.1, step :: r.2) := by
  cases hp : AutoFormatDevice.play o s b with
  | none => simp [AutoFormatDevice.playTrace, hp]
  | some step =>
      cases ht : AutoFormatDevice.playTrace o step.state bs with
      | none => simp [AutoFormatDevice.playTrace, hp, ht]
      | some r =>
          obtain ⟨s', steps⟩ := r
          simp [AutoFormatDevice.playTrace, hp, ht]

theorem playTrace_cons_inv {o : OpenOracle} {s : AutoFormatDevice} {b : Buffer}
    {bs : List Buffer} {r : AutoFormatDevice × List PlayStep}
    (ht : AutoFormatDevice.playTrace o s (b :: bs) = some r) :
    ∃ step r', AutoFormatDevice.play o s b = some step ∧
      AutoFormatDevice.playTrace o step.state bs = some r' ∧
      r = (r'.1, step :: r'.2) := by
  rw [playTrace_cons, Option.bind_eq_some] at ht
  obtain ⟨step, hb, hmap⟩ := ht
  rw [Option.map_eq_some'] at hmap
  obtain ⟨r', htr, hr⟩ := hmap
  exact ⟨step, r', hb, htr, hr.symm⟩

theorem trace_matched_zero (bs : List Buffer) :
    ∀ (o : OpenOracle) (s : AutoFormatDevice) (b0 : Buffer),
      must_reopen s b0 = false → (∀ b ∈ bs, sameFormat b0 b) →
      ∀ r, AutoFormatDevice.playTrace o s bs = some r →
        (r.2.map PlayStep.successOpens).sum = 0 := by
  induction bs with
  | nil =>
      intro o s b0 _ _ r ht
      simp only [AutoFormatDevice.playTrace, Option.some.injEq] at ht
      subst ht
      simp
  | cons b bs ih =>
      intro o s b0 hm hbs r ht
      obtain ⟨step, r', hb, htr, hr⟩ := playTrace_cons_inv ht
      have hsfb : sameFormat b0 b := hbs b (List.mem_cons_self b bs)
      have hmb : must_reopen s b = false := must_reopen_same_of_matched hm hsfb
      rw [play_of_not_reopen hmb] at hb
      injection hb with hb
      subst hr
      have hnext : must_reopen step.state b0 = false := by
        refine play_ok_matches (o := o) (s := s) (b := b) ?_ ?_ (sameFormat_symm hsfb)
        · rw [play_of_not_reopen hmb, hb]
        · rw [← hb]
      have hz := ih o step.state b0 hnext
        (fun b' hb' => hbs b' (List.mem_cons_of_mem _ hb')) r' htr
      have h0 : step.successOpens = 0 := by
        rw [← hb]
        simp [PlayStep.successOpens]
      simp only [List.map_cons, List.sum_cons, h0, hz]

theorem trace_success_le_one (bs : List Buffer) :
    ∀ (o : OpenOracle) (s : AutoFormatDevice) (b0 : Buffer),
      (∀ b ∈ bs, sameFormat b0 b) →
      ∀ r, AutoFormatDevice.playTrace o s bs = some r →
        (r.2.map PlayStep.successOpens).sum ≤ 1 := by
  induction bs with
  | nil =>
      intro o s b0 _ r ht
      simp only [AutoFormatDevice.playTrace, Option.some.injEq] at ht
      subst ht
      simp
  | cons b bs ih =>
      intro o s b0 hbs r ht
      obtain ⟨step, r', hb, htr, hr⟩ := playTrace_cons_inv ht
      subst hr
      simp only [List.map_cons, List.sum_cons]
      cases hres : step.result with
      | error e =>
          have h0 : step.successOpens = 0 := by
            simp [PlayStep.successOpens, hres]
          have hrest := ih o step.state b0
            (fun b' hb' => hbs b' (List.mem_cons_of_mem _ hb')) r' htr
          omega
      | ok u =>
          cases u
          have h1 : step.successOpens = step.openArgs.length := by
            simp [PlayStep.successOpens, hres]
          have hlen := play_openArgs_len hb
          have hle : step.openArgs.length ≤ 1 := by
            rw [hlen]
            split <;> omega
          have hz := trace_matched_zero bs o step.state b
            (play_ok_matches hb hres ⟨rfl, rfl, rfl, rfl⟩)
            (fun b' hb' => sameFormat_cancel (hbs b (List.mem_cons_self b bs))
              (hbs b' (List.mem_cons_of_mem _ hb')))
            r' htr
          omega

theorem play_consecutive_reopen {o : OpenOracle} {s : AutoFormatDevice}
    {b1 b2 : Buffer} {st1 st2 : PlayStep}
    (h1 : AutoFormatDevice.play o s b1 = some st1) (hr1 : st1.result = .ok ())
    (h2 : AutoFormatDevice.play o st1.state b2 = some st2)
    (hdiff : ¬ sameFormat b1 b2) :
    st2.openArgs.length = 1 := by
  have hmr : must_reopen st1.state b2 = true := by
    cases h : must_reopen st1.state b2 with
    | true => rfl
    | false =>
        exfalso
        rcases (must_reopen_eq_false_iff _ _).mp h with ⟨d, hd, k1, k2, k3, k4⟩
        obtain ⟨p1, p2, p3, d', hd', hw⟩ := play_ok_post h1 hr1
        have hdd : d' = d := by
          injection (hd'.symm.trans hd)
        exact hdiff ⟨(k1.trans p1).symm, (k2.trans p2).symm, (k3.trans p3).symm,
          hw.symm.trans ((congrArg DeviceFormat.sample_width hdd).trans k4.symm)⟩
  rw [play_openArgs_len h2, hmr]
  simp

/-! Helper lemmas about the device sink loop and the initialization guard. -/

theorem deviceSink_run_spec {α : Type} (blocks : List (List α)) :
    ∀ (samples done : Nat), done ≤ samples →
      (DeviceSink.run samples blocks done).1 =
        min samples (done + (blocks.map List.length).sum) ∧
      ((DeviceSink.run samples blocks done).2).flatten =
        (blocks.flatten).take (samples - done) := by
  induction blocks with
  | nil =>
      intro samples done h
      refine ⟨?_, ?_⟩
      · simp only [DeviceSink.run, List.map_nil, List.sum_nil, Nat.add_zero]
        omega
      · simp [DeviceSink.run]
  | cons n rest ih =>
      intro samples done h
      by_cases hlt : done < samples
      · by_cases hbig : n.length > samples - done
        · have hdl : (n.take (samples - done)).length = samples - done := by
            rw [List.length_take]
            omega
          have heq : done + (n.take (samples - done)).length = samples := by
            rw [hdl]
            omega
          obtain ⟨ih1, ih2⟩ := ih samples samples le_rfl
          refine ⟨?_, ?_⟩
          · simp only [DeviceSink.run, if_pos hlt, if_pos hbig, heq, ih1,
              List.map_cons, List.sum_cons]
            omega
          · simp only [DeviceSink.run, if_pos hlt, if_pos hbig, heq,
              List.flatten_cons, ih2, Nat.sub_self, List.take_zero,
              List.append_nil, List.take_append_eq_append_take]
            rw [show samples - done - n.length = 0 by omega, List.take_zero,
              List.append_nil]
        · have hle : n.length ≤ samples - done := by omega
          have hde : done + n.length ≤ samples := by omega
          obtain ⟨ih1, ih2⟩ := ih samples (done + n.length) hde
          refine ⟨?_, ?_⟩
          · simp only [DeviceSink.run, if_pos hlt, if_neg hbig, ih1,
              List.map_cons, List.sum_cons]
            omega
          · simp only [DeviceSink.run, if_pos hlt, if_neg hbig,
              List.flatten_cons, ih2, List.take_append_eq_append_take]
            rw [List.take_of_length_le hle,
              show samples - done - n.length = samples - (done + n.length) by omega]
      · have hde : done = samples := by omega
        refine ⟨?_, ?_⟩
        · simp only [DeviceSink.run, if_neg hlt]
          omega
        · simp only [DeviceSink.run, if_neg hlt]
          rw [show samples - done = 0 by omega, List.take_zero]
          rfl

theorem ao_run_cons (s : AOState) (e : AOEvent) (es : List AOEvent) :
    AO.run s (e :: es) = (AO.step s e).bind fun s' => AO.run s' es := by
  cases hs : AO.step s e with
  | none => simp [AO.run, hs]
  | some s' => simp [AO.run, hs]

theorem ao_step_inv {s s' : AOState} {e : AOEvent}
    (hi : s.live = if s.initialized then 1 else 0)
    (hs : AO.step s e = some s') :
    s'.live = if s'.initialized then 1 else 0 := by
  cases e with
  | init =>
      unfold AO.step at hs
      by_cases hf : s.initialized
      · rw [if_pos hf] at hs
        exact absurd hs (by simp)
      · rw [if_neg hf] at hs
        injection hs with hs
        subst hs
        rw [if_neg hf] at hi
        simp [hi]
  | drop =>
      unfold AO.step at hs
      by_cases hz : s.live = 0
      · rw [if_pos hz] at hs
        exact absurd hs (by simp)
      · rw [if_neg hz] at hs
        injection hs with hs
        subst hs
        by_cases hf : s.initialized
        · rw [if_pos hf] at hi
          simp [hi]
        · rw [if_neg hf] at hi
          exact absurd hi hz

theorem ao_run_inv (es : List AOEvent) :
    ∀ s s', s.live = (if s.initialized then 1 else 0) →
      AO.run s es = some s' →
      s'.live = if s'.initialized then 1 else 0 := by
  induction es with
  | nil =>
      intro s s' hi h
      simp only [AO.run, Option.some.injEq] at h
      subst h
      exact hi
  | cons e es ih =>
      intro s s' hi h
      rw [ao_run_cons, Option.bind_eq_some] at h
      obtain ⟨s1, hs1, hrun⟩ := h
      exact ih s1 s' (ao_step_inv hi hs1) hrun

theorem clampSample_bounds (x : ℚ) :
    -1 ≤ clampSample x ∧ clampSample x ≤ 1 := by
  unfold clampSample
  split
  · exact ⟨by norm_num, le_refl 1⟩
  · split
    · exact ⟨le_refl (-1), by norm_num⟩
    · rename_i h1 h2
      exact ⟨not_lt.mp h2, not_lt.mp h1⟩

/-! Concrete fixtures used by the witness theorems. -/

/-- Oracle accepting every open request. -/
def oracleAccept : OpenOracle := fun _ _ _ _ _ => .ok ()

/-- Oracle rejecting every open request with `OpenDevice`. -/
def oracleReject : OpenOracle := fun _ _ _ _ _ => .error .OpenDevice

/-- Stereo 16-bit, 44100 Hz buffer. -/
def buf16 : Buffer :=
  { channels := 2, sample_rate := 44100, endianness := .Native,
    sample_width := 16, data := [1, 2, 3, 4] }

/-- Mono 8-bit, 8000 Hz buffer. -/
def buf8 : Buffer :=
  { channels := 1, sample_rate := 8000, endianness := .Little,
    sample_width := 8, data := [7] }

/-- Stereo buffer claiming unsupported 24-bit samples. -/
def buf24 : Buffer :=
  { channels := 2, sample_rate := 44100, endianness := .Native,
    sample_width := 24, data := [0, 0, 0] }

/-- Fresh auto-format device with a three-entry matrix table. -/
def afd0 : AutoFormatDevice := AutoFormatDevice.new ["", "L", "L,R"]

/-- Expected outcome of playing `buf16` on `afd0` with `oracleAccept`. -/
def stepW : PlayStep :=
  { state := { channels := 2, sample_rate := 44100, endianness := .Native,
               device := some .Integer16, matrixes := ["", "L", "L,R"] }
    result := .ok ()
    openArgs := [(16, 44100, 2, .Native, some "L,R")]
    written := [1, 2, 3, 4] }

/-- Expected outcome of then playing `buf16` again (no reopen). -/
def stepW2 : PlayStep :=
  { state := stepW.state
    result := .ok ()
    openArgs := []
    written := [1, 2, 3, 4] }

/-- Expected outcome of then playing `buf8` (format change, one reopen). -/
def stepW3 : PlayStep :=
  { state := { channels := 1, sample_rate := 8000, endianness := .Little,
               device := some .Integer8, matrixes := ["", "L", "L,R"] }
    result := .ok ()
    openArgs := [(8, 8000, 1, .Little, some "L")]
    written := [7] }

/-- Expected outcome of playing `buf16` on `afd0` with `oracleReject`. -/
def stepE : PlayStep :=
  { state := afd0
    result := .error .OpenDevice
    openArgs := [(16, 44100, 2, .Native, some "L,R")]
    written := [] }

/-! Claim theorems. -/

/-- C1: during a `play` call the driver open is invoked exactly when the
reopen condition holds, and the reopen condition is: no device is cached, or
the buffer channels, sample rate or endianness differ from the cached
observed values, or the buffer sample width differs from the bit width of
the cached device. Consequently, over any sequence of `play` calls whose
buffers share one (channels, sample rate, endianness, bit width) format the
device is successfully opened at most once, and for a pair of consecutive
buffers that differ in one of those fields, a second call that writes its
buffer performs exactly one reopen. -/
theorem auto_play_reopen_policy :
    (∀ (s : AutoFormatDevice) (b : Buffer),
      must_reopen s b = true ↔ specMustReopen s b) ∧
    (∀ (o : OpenOracle) (s : AutoFormatDevice) (b : Buffer) (step : PlayStep),
      AutoFormatDevice.play o s b = some step →
      step.openArgs.length = if must_reopen s b then 1 else 0) ∧
    (∀ (o : OpenOracle) (s : AutoFormatDevice) (b0 : Buffer)
      (bs : List Buffer) (r : AutoFormatDevice × List PlayStep),
      (∀ b ∈ bs, sameFormat b0 b) →
      AutoFormatDevice.playTrace o s bs = some r →
      (r.2.map PlayStep.successOpens).sum ≤ 1) ∧
    (∀ (o : OpenOracle) (s : AutoFormatDevice) (b1 b2 : Buffer)
      (st1 st2 : PlayStep),
      AutoFormatDevice.play o s b1 = some st1 → st1.result = .ok () →
      AutoFormatDevice.play o st1.state b2 = some st2 → st2.result = .ok () →
      ¬ sameFormat b1 b2 → st2.openArgs.length = 1) :=
  ⟨must_reopen_eq_true_iff,
   fun _ _ _ _ hp => play_openArgs_len hp,
   fun o s b0 bs r hsf ht => trace_success_le_one bs o s b0 hsf r ht,
   fun _ _ _ _ _ _ h1 hr1 h2 _ hdiff => play_consecutive_reopen h1 hr1 h2 hdiff⟩

/-- C1 witness: a fresh device opens once for the first buffer, does not
reopen for an identical second buffer, and reopens exactly once for a third
buffer of a different format. -/
theorem auto_play_reopen_policy_witness :
    (must_reopen afd0 buf16 = true ↔ specMustReopen afd0 buf16) ∧
    stepW.openArgs.length = 1 ∧
    ([stepW, stepW2].map PlayStep.successOpens).sum ≤ 1 ∧
    stepW3.openArgs.length = 1 := by
  refine ⟨auto_play_reopen_policy.1 afd0 buf16, ?_, ?_, ?_⟩
  · have h := auto_play_reopen_policy.2.1 oracleAccept afd0 buf16 stepW rfl
    rw [h]
    decide
  · exact auto_play_reopen_policy.2.2.1 oracleAccept afd0 buf16
      [buf16, buf16] (stepW.state, [stepW, stepW2]) (by decide) rfl
  · exact auto_play_reopen_policy.2.2.2 oracleAccept afd0 buf16 buf8
      stepW stepW3 rfl rfl rfl rfl (by decide)

/-- C2: when `play` attempts a reopen and the driver open fails, the call
returns exactly the error the open returned, the cached observed-format
fields and the cached device are unchanged (the whole state is unchanged),
and no bytes are written to any device. -/
theorem auto_play_failed_reopen_no_mutation :
    ∀ (o : OpenOracle) (s : AutoFormatDevice) (b : Buffer) (step : PlayStep)
      (er : AoError),
      AutoFormatDevice.play o s b = some step →
      step.result = .error er →
      o b.sample_width b.sample_rate b.channels b.endianness
          (s.matrix_for b.channels) = .error er ∧
      step.state = s ∧ step.written = [] :=
  fun _ _ _ _ _ hp hr =>
    have h := play_error_inv hp hr
    ⟨h.2.2.2, h.1, h.2.1⟩

/-- C2 witness: with a rejecting driver, playing a 16-bit buffer on a fresh
device returns the open error, leaves the state untouched and writes
nothing. -/
theorem auto_play_failed_reopen_no_mutation_witness :
    AutoFormatDevice.play oracleReject afd0 buf16 = some stepE ∧
    stepE.result = .error .OpenDevice ∧
    (oracleReject buf16.sample_width buf16.sample_rate buf16.channels
        buf16.endianness (afd0.matrix_for buf16.channels) =
      .error .OpenDevice ∧
     stepE.state = afd0 ∧ stepE.written = []) :=
  ⟨rfl, rfl,
   auto_play_failed_reopen_no_mutation oracleReject afd0 buf16 stepE
     .OpenDevice rfl rfl⟩

/-- C3: matrix selection for channel count c yields no matrix string when
the table has at most c entries and the verbatim entry at index c
otherwise; every driver-open invocation performed by `play` passes exactly
the matrix selected for the buffer channel count. -/
theorem matrix_for_selection :
    (∀ (s : AutoFormatDevice) (c : Nat),
      (s.matrixes.length ≤ c → s.matrix_for c = none) ∧
      (∀ h : c < s.matrixes.length,
        s.matrix_for c = some (s.matrixes.get ⟨c, h⟩))) ∧
    (∀ (o : OpenOracle) (s : AutoFormatDevice) (b : Buffer) (step : PlayStep),
      AutoFormatDevice.play o s b = some step →
      ∀ a ∈ step.openArgs,
        a = (b.sample_width, b.sample_rate, b.channels, b.endianness,
             s.matrix_for b.channels)) := by
  constructor
  · intro s c
    constructor
    · intro h
      simp [AutoFormatDevice.matrix_for, h]
    · intro h
      rw [AutoFormatDevice.matrix_for, dif_neg (not_le.mpr h)]
  · intro o s b step hp a ha
    rcases play_cases hp with ⟨hmr, hstep⟩ | ⟨e, hmr, hnew, hstep⟩ |
        ⟨d, hmr, hnew, hstep⟩ <;> subst hstep <;> simp at ha
    · exact ha
    · exact ha

/-- C3 witness: with the table ["", "L", "L,R"], channel count 2 selects
"L,R", channel count 5 selects no matrix, and the open call for `buf16`
passes the selected matrix. -/
theorem matrix_for_selection_witness :
    afd0.matrix_for 5 = none ∧
    afd0.matrix_for 2 = some "L,R" ∧
    (16, 44100, 2, Endianness.Native, some "L,R") =
      (buf16.sample_width, buf16.sample_rate, buf16.channels,
       buf16.endianness, afd0.matrix_for buf16.channels) := by
  refine ⟨(matrix_for_selection.1 afd0 5).1 (by decide), ?_, ?_⟩
  · rw [(matrix_for_selection.1 afd0 2).2 (by decide)]
    rfl
  · exact matrix_for_selection.2 oracleAccept afd0 buf16 stepW rfl
      (16, 44100, 2, .Native, some "L,R") (by decide)

/-- C4: constructing a device format for a bit width outside {8, 16, 32} is
a panic (no recoverable error value, no fallback device), and a `play` that
would reopen for such a buffer panics, producing no post-state at all, so
no cached field is mutated. -/
theorem deviceFormat_new_bad_width_panics :
    ∀ (o : OpenOracle) (w r c : Nat) (e : Endianness) (m : Option String),
      w ≠ 8 → w ≠ 16 → w ≠ 32 →
      DeviceFormat.new o w r c e m = none ∧
      (∀ (s : AutoFormatDevice) (b : Buffer),
        must_reopen s b = true → b.sample_width = w →
        AutoFormatDevice.play o s b = none) := by
  intro o w r c e m h8 h16 h32
  refine ⟨DeviceFormat.new_invalid h8 h16 h32, ?_⟩
  intro s b hmr hw
  subst hw
  simp [AutoFormatDevice.play, hmr, DeviceFormat.new_invalid h8 h16 h32]

/-- C4 witness: a 24-bit buffer makes both the format constructor and the
reopening `play` panic. -/
theorem deviceFormat_new_bad_width_panics_witness :
    DeviceFormat.new oracleAccept 24 44100 2 .Native (some "L,R") = none ∧
    AutoFormatDevice.play oracleAccept afd0 buf24 = none := by
  have h := deviceFormat_new_bad_width_panics oracleAccept 24 44100 2 .Native
    (some "L,R") (by decide) (by decide) (by decide)
  exact ⟨h.1, (deviceFormat_new_bad_width_panics oracleAccept 24 44100 2
    .Native (some "L,R") (by decide) (by decide) (by decide)).2 afd0 buf24
    rfl rfl⟩

/-- C5: every `next` call of a white noise generator yields `some` block of
`block_size` samples (the generator never exhausts), and every sample of
the block lies in [-1, 1]. -/
theorem whiteNoise_next_total_and_clamped :
    ∀ (w : WhiteNoise), ∃ l, (w.next).1 = some l ∧
      l.length = w.block_size ∧ ∀ x ∈ l, -1 ≤ x ∧ x ≤ 1 := by
  intro w
  refine ⟨_, rfl, by simp [WhiteNoise.next], ?_⟩
  intro x hx
  simp only [WhiteNoise.next, List.mem_map] at hx
  obtain ⟨i, _, hi⟩ := hx
  exact hi ▸ clampSample_bounds (w.rng i)

/-- C5 witness: a generator whose raw draws are the constant 2 yields a
512-sample block of values inside [-1, 1]. -/
theorem whiteNoise_next_total_and_clamped_witness :
    ∃ l, ((WhiteNoise.new (fun _ => 2) 1).next).1 = some l ∧
      l.length = (WhiteNoise.new (fun _ => 2) 1).block_size ∧
      ∀ x ∈ l, -1 ≤ x ∧ x ≤ 1 :=
  whiteNoise_next_total_and_clamped (WhiteNoise.new (fun _ => 2) 1)

/-- C6 (evidence for the code bug): the f64-to-i16 conversion stage maps
every source sample to the literal 0 instead of applying a scaling rule:
converting the one-sample block [1] yields [0], and converting
[1, -1, 1/2] yields [0, 0, 0]. -/
theorem convert_f64_i16_constant_zero :
    Convert.next [[(1 : ℚ)]] = .yields ([(0 : Int)], []) ∧
    Convert.next [[(1 : ℚ), -1, 1/2]] = .yields ([0, 0, 0], []) :=
  ⟨rfl, rfl⟩

/-- C7: the device sink forwards blocks until the requested sample count is
reached, truncating the final block, so the bytes forwarded are exactly the
first `samples` samples of the source stream and the returned count is
min(samples, total available). -/
theorem deviceSink_run_count :
    ∀ {α : Type} (samples : Nat) (blocks : List (List α)),
      (DeviceSink.run samples blocks 0).1 =
        min samples ((blocks.map List.length).sum) ∧
      ((DeviceSink.run samples blocks 0).2).flatten =
        (blocks.flatten).take samples := by
  intro α samples blocks
  have h := deviceSink_run_spec blocks samples 0 (Nat.zero_le _)
  refine ⟨?_, ?_⟩
  · rw [h.1, Nat.zero_add]
  · rw [h.2, Nat.sub_zero]

/-- C7 witness: requesting 5 samples from two 3-sample blocks forwards one
full block and one truncated block, and returns 5. -/
theorem deviceSink_run_count_witness :
    (DeviceSink.run 5 [[(1 : Int), 2, 3], [4, 5, 6]] 0).1 = 5 ∧
    (DeviceSink.run 5 [[(1 : Int), 2, 3], [4, 5, 6]] 0).2 =
      [[1, 2, 3], [4, 5]] :=
  ⟨(deviceSink_run_count 5 [[(1 : Int), 2, 3], [4, 5, 6]]).1.trans
    (by decide), rfl⟩

/-- C8: from process start, any sequence of init and drop events that does
not panic leaves at most one live library handle, and in any reachable
state with a live handle a further `AO::init` call panics (yields no second
handle). -/
theorem ao_single_instance :
    ∀ (es : List AOEvent) (s : AOState),
      AO.run AOState.start es = some s →
      s.live ≤ 1 ∧ (1 ≤ s.live → AO.step s .init = none) := by
  intro es s h
  have hinv : s.live = if s.initialized then 1 else 0 :=
    ao_run_inv es AOState.start s (by simp [AOState.start]) h
  constructor
  · rw [hinv]
    split <;> omega
  · intro hlive
    have hinit : s.initialized = true := by
      by_contra hc
      rw [if_neg hc] at hinv
      omega
    simp [AO.step, hinit]

/-- C8 witness: after one successful init the single handle is live and a
second init panics. -/
theorem ao_single_instance_witness :
    AO.run AOState.start [.init] = some { initialized := true, live := 1 } ∧
    ({ initialized := true, live := 1 } : AOState).live ≤ 1 ∧
    AO.step { initialized := true, live := 1 } .init = none := by
  have h := ao_single_instance [.init] { initialized := true, live := 1 } rfl
  exact ⟨rfl, h.1, h.2 (by decide)⟩

/-- C9 (evidence for the code bug): the current translation function maps
each of the nine codes of the taxonomy to its corresponding variant and an
unrecognized code (999) to Unknown, while the historical variant in
src/lib.rs maps the recognized code AO_EOPENFILE to Unknown because its
match omits that arm. -/
theorem from_errno_taxonomy_and_divergence :
    AoError.from_errno AO_ENODRIVER = .NoDriver ∧
    AoError.from_errno AO_ENOTFILE = .NotFile ∧
    AoError.from_errno AO_ENOTLIVE = .NotLive ∧
    AoError.from_errno AO_EBADOPTION = .BadOption ∧
    AoError.from_errno AO_EOPENDEVICE = .OpenDevice ∧
    AoError.from_errno AO_EOPENFILE = .OpenFile ∧
    AoError.from_errno AO_EFILEEXISTS = .FileExists ∧
    AoError.from_errno AO_EBADFORMAT = .BadFormat ∧
    AoError.from_errno AO_EFAIL = .Unknown ∧
    AoError.from_errno 999 = .Unknown ∧
    AoError.from_errno_v0 AO_EOPENFILE = .Unknown := by
  decide

/-- C10: the f64-to-i16 conversion stage unwraps its source, so it panics
when the source is exhausted, and it never itself signals exhaustion by
returning `None`. -/
theorem convert_never_signals_exhaustion :
    (∀ src : List (List ℚ), src = [] → Convert.next src = .panicked) ∧
    (∀ src : List (List ℚ), Convert.next src ≠ .exhausted) := by
  constructor
  · intro src h
    subst h
    rfl
  · intro src
    cases src <;> simp [Convert.next]

/-- C10 witness: the conversion stage panics on an exhausted source and does
not signal exhaustion on a nonempty one. -/
theorem convert_never_signals_exhaustion_witness :
    ([] : List (List ℚ)) = [] ∧
    Convert.next ([] : List (List ℚ)) = .panicked ∧
    Convert.next [[(1 : ℚ)]] ≠ .exhausted :=
  ⟨rfl, convert_never_signals_exhaustion.1 [] rfl,
   convert_never_signals_exhaustion.2 [[(1 : ℚ)]]⟩
